import Mathlib

/-!
Shallow embedding of src/js/performance-fix.js (the self-invoking browser
performance script) and proofs of the specification claims about it.

The document is modelled as inline-style records for body and
documentElement plus a list of elements (each with tag, class list,
attributes and an inline-style record), the appended head style nodes,
and the window scroll position.  Timers (setTimeout) are modelled as an
explicit list of (due time, action) pairs inside a World state; the
requestAnimationFrame throttle of the scroll listener is modelled as a
separate small state machine driven by a trace of scroll and frame
events, and the resize debounce as a function of the list of resize
event times.
-/

/-- Inline style record of one DOM node.  The named fields are exactly the
style properties the script reads or writes; `otherCss` stands for all
remaining inline declarations (property, value pairs), which the script
never touches. -/
structure Style where
  overflow : String := ""
  height : String := ""
  webkitOverflowScrolling : String := ""
  willChange : String := ""
  transform : String := ""
  backfaceVisibility : String := ""
  contain : String := ""
  imageRendering : String := ""
  otherCss : List (String × String) := []
deriving Repr, DecidableEq

/-- A DOM element: tag name, class list, attributes and inline style. -/
structure Element where
  tag : String := "div"
  classes : List String := []
  attrs : List (String × String) := []
  style : Style := {}
deriving Repr, DecidableEq

/-- Document state touched by the script: body and documentElement inline
styles, the element list (in document order), the text of style nodes the
script appended to head, and the window scroll position. -/
structure Doc where
  body : Style := {}
  docElement : Style := {}
  elements : List Element := []
  headStyles : List String := []
  scrollX : Int := 0
  scrollY : Int := 0
deriving Repr, DecidableEq

/-- Serialization of the named inline-style properties, in the order they
appear in the record, as (css property, value) pairs. -/
def styleProps (s : Style) : List (String × String) :=
  [("overflow", s.overflow), ("height", s.height),
   ("-webkit-overflow-scrolling", s.webkitOverflowScrolling),
   ("will-change", s.willChange), ("transform", s.transform),
   ("backface-visibility", s.backfaceVisibility), ("contain", s.contain),
   ("image-rendering", s.imageRendering)] ++ s.otherCss

/-- Serialized inline style attribute text: every declaration with a
nonempty value, rendered as in a style attribute. -/
def styleAttr (s : Style) : String :=
  String.join ((styleProps s).filterMap
    (fun p => if p.2 = "" then none else some (p.1 ++ ": " ++ p.2 ++ "; ")))

/-- List-of-characters test: does the second list start with the first. -/
def startsWithL : List Char → List Char → Bool
  | [], _ => true
  | _ :: _, [] => false
  | p :: ps, c :: cs => p = c && startsWithL ps cs

/-- List-of-characters substring test. -/
def hasSubL (pat : List Char) : List Char → Bool
  | [] => pat.isEmpty
  | c :: cs => startsWithL pat (c :: cs) || hasSubL pat cs

/-- Substring test on strings. -/
def containsSub (s pat : String) : Bool := hasSubL pat.toList s.toList

/-- Class membership test, as in a CSS class selector. -/
def hasClass (el : Element) (c : String) : Bool := el.classes.contains c

/-- Attribute presence test, as in a CSS attribute selector. -/
def hasAttr (el : Element) (a : String) : Bool := el.attrs.any (fun p => p.1 = a)

/-- Selector [style*="transform"] used by optimizeTransforms: the serialized
style attribute contains the substring transform. -/
def selStyleTransform (el : Element) : Bool := containsSub (styleAttr el.style) "transform"

/-- Selector .project, .page, [data-v-4aa72278] used by
setupIntersectionObserver. -/
def selObserve (el : Element) : Bool :=
  hasClass el "project" || hasClass el "page" || hasAttr el "data-v-4aa72278"

/-- Selector .page, .background, .showreel, .project used by
enableHardwareAcceleration. -/
def selHeavy (el : Element) : Bool :=
  hasClass el "page" || hasClass el "background" || hasClass el "showreel" ||
    hasClass el "project"

/-- Selector img used by optimizeImages. -/
def selImg (el : Element) : Bool := el.tag = "img"

/-- Selector section, .page, footer used by reducePaintOperations. -/
def selSection (el : Element) : Bool :=
  el.tag = "section" || hasClass el "page" || el.tag = "footer"

/-- Update the element at position i with f, leaving the rest unchanged. -/
def updAt : Nat → (Element → Element) → List Element → List Element
  | _, _, [] => []
  | 0, f, a :: as => f a :: as
  | n + 1, f, a :: as => a :: updAt n f as

/-- forEach over a querySelectorAll snapshot whose callback only writes the
visited element: every element matching p is replaced by f of it. -/
def Doc.updateElems (d : Doc) (p : Element → Bool) (f : Element → Element) : Doc :=
  { d with elements := d.elements.map (fun el => if p el then f el else el) }

/-- Positions (in document order) of the elements matching p, starting the
count at i. -/
def idxsFrom (p : Element → Bool) : Nat → List Element → List Nat
  | _, [] => []
  | i, a :: as => if p a then i :: idxsFrom p (i + 1) as else idxsFrom p (i + 1) as

/-- Positions of the elements of d matching p: the querySelectorAll
snapshot, identified by document-order index. -/
def matchedIdxs (p : Element → Bool) (d : Doc) : List Nat := idxsFrom p 0 d.elements

/-- Write the willChange inline property of the element at position i. -/
def Doc.setElemWillChange (d : Doc) (i : Nat) (v : String) : Doc :=
  { d with elements := updAt i (fun el => { el with style := { el.style with willChange := v } }) d.elements }

/-- Read the willChange inline property of the element at position i. -/
def Doc.willChangeAt (d : Doc) (i : Nat) : Option String :=
  (d.elements.get? i).map (fun el => el.style.willChange)

/-- setAttribute: replace the value if the attribute exists, else append it. -/
def setAttr (el : Element) (k v : String) : Element :=
  { el with attrs :=
      if el.attrs.any (fun p => p.1 = k) then
        el.attrs.map (fun p => if p.1 = k then (k, v) else p)
      else el.attrs ++ [(k, v)] }

/-- Actions a setTimeout callback of the script can perform. -/
inductive TAction where
  /-- The callback scheduled by optimizeTransforms for one element:
  el.style.willChange = auto. -/
  | resetWillChange (i : Nat)
  /-- A scheduled re-run of enableScrollingImmediately. -/
  | enableScrolling
deriving Repr, DecidableEq

/-- A pending setTimeout: due time and action. -/
structure Timer where
  due : Nat
  action : TAction
deriving Repr, DecidableEq

/-- Whole-script state: the document, the current time in ms, the pending
timers, the indices of elements handed to observer.observe, and whether
the IntersectionObserver API is present in window. -/
structure World where
  doc : Doc := {}
  now : Nat := 0
  timers : List Timer := []
  observed : List Nat := []
  hasIntersectionObserver : Bool := true
deriving Repr, DecidableEq

/-- enableScrollingImmediately: set body and documentElement overflow and
height to auto, body webkitOverflowScrolling to touch, and scroll the
window to (0, 0). -/
def enableScrollingImmediately (w : World) : World :=
  { w with doc :=
    { w.doc with
      body := { w.doc.body with overflow := "auto", height := "auto",
                                webkitOverflowScrolling := "touch" },
      docElement := { w.doc.docElement with overflow := "auto", height := "auto" },
      scrollX := 0, scrollY := 0 } }

/-- optimizeTransforms: for every element matching [style*="transform"] in
the querySelectorAll snapshot, set willChange to transform and schedule a
setTimeout of 3000 ms that resets that same element willChange to auto. -/
def optimizeTransforms (w : World) : World :=
  { w with
    doc := w.doc.updateElems selStyleTransform
      (fun el => { el with style := { el.style with willChange := "transform" } }),
    timers := w.timers ++
      (matchedIdxs selStyleTransform w.doc).map
        (fun i => { due := w.now + 3000, action := TAction.resetWillChange i }) }

/-- Resize debounce, from the resize listener: clearTimeout on the pending
timer, then setTimeout of the wrapped call at 250 ms.  Given the deadline
of the pending timer and the remaining (increasing) resize event times, it
returns the times at which the wrapped function actually executes: an
event arriving strictly before the deadline cancels the pending execution
and restarts the 250 ms delay; otherwise the pending timer has already
fired at its deadline. -/
def debounceRunsAux : Nat → List Nat → List Nat
  | deadline, [] => [deadline]
  | deadline, t :: ts =>
      if t < deadline then debounceRunsAux (t + 250) ts
      else deadline :: debounceRunsAux (t + 250) ts

/-- Execution times of the debounced optimizeTransforms for a list of
resize event times (increasing): the first event sets a 250 ms timer and
later events are handled by debounceRunsAux. -/
def debounceRuns : List Nat → List Nat
  | [] => []
  | t :: ts => debounceRunsAux (t + 250) ts

/-- setupIntersectionObserver: when the IntersectionObserver API is in
window, create an observer (rootMargin 50px) and observe every element
matching .project, .page, [data-v-4aa72278]; otherwise do nothing.
Observing mutates no document state. -/
def setupIntersectionObserver (w : World) : World :=
  if w.hasIntersectionObserver then
    { w with observed := w.observed ++ matchedIdxs selObserve w.doc }
  else w

/-- An entry handed to the observer callback: the observed target (by
document-order index) and whether it intersects the viewport. -/
structure IOEntry where
  targetIdx : Nat
  isIntersecting : Bool
deriving Repr, DecidableEq

/-- The observer callback: for each entry, set the target willChange to
transform, opacity when it intersects, and to auto otherwise. -/
def observerCallback (entries : List IOEntry) (d : Doc) : Doc :=
  entries.foldl
    (fun d e =>
      if e.isIntersecting then d.setElemWillChange e.targetIdx "transform, opacity"
      else d.setElemWillChange e.targetIdx "auto") d

/-- enableHardwareAcceleration: for every element matching
.page, .background, .showreel, .project, set transform to the existing
transform when that is nonempty (JavaScript or on strings: the empty
string is falsy) and to translateZ(0) otherwise, and set
backfaceVisibility to hidden. -/
def enableHardwareAcceleration (w : World) : World :=
  { w with
    doc := w.doc.updateElems selHeavy
      (fun el => { el with style :=
        { el.style with
          transform := if el.style.transform = "" then "translateZ(0)" else el.style.transform,
          backfaceVisibility := "hidden" } }) }

/-- optimizeImages: for every img element, set imageRendering to auto and
setAttribute loading lazy. -/
def optimizeImages (w : World) : World :=
  { w with
    doc := w.doc.updateElems selImg
      (fun el => setAttr { el with style := { el.style with imageRendering := "auto" } }
        "loading" "lazy") }

/-- reducePaintOperations: for every element matching section, .page,
footer, set contain to layout style paint. -/
def reducePaintOperations (w : World) : World :=
  { w with
    doc := w.doc.updateElems selSection
      (fun el => { el with style := { el.style with contain := "layout style paint" } }) }

/-- Text content of the style element smoothTransitions appends to head. -/
def smoothTransitionsCss : String :=
  "* \x7b -webkit-font-smoothing: antialiased; -moz-osx-font-smoothing: grayscale; \x7d " ++
  ".page, .background, [style*=transform] \x7b backface-visibility: hidden; perspective: 1000px; \x7d " ++
  "img, video \x7b content-visibility: auto; \x7d " ++
  "body, html \x7b overflow: auto !important; height: auto !important; \x7d"

/-- smoothTransitions: create a style element with the fixed CSS text and
append it to document.head. -/
def smoothTransitions (w : World) : World :=
  { w with doc := { w.doc with headStyles := w.doc.headStyles ++ [smoothTransitionsCss] } }

/-- Run one timer action. -/
def runTAction : TAction → World → World
  | TAction.resetWillChange i, w => { w with doc := w.doc.setElemWillChange i "auto" }
  | TAction.enableScrolling, w => enableScrollingImmediately w

/-- Fire every pending timer, in queue order. -/
def fireAll (w : World) : World :=
  w.timers.foldl (fun acc t => runTAction t.action acc) { w with timers := [] }

/-- Timeouts scheduled at the end of the script body: the forced
scroll-enable hack is re-run at 500 ms, 1000 ms and 2000 ms after script
load. -/
def scriptTailTimers : List Timer :=
  [{ due := 500, action := TAction.enableScrolling },
   { due := 1000, action := TAction.enableScrolling },
   { due := 2000, action := TAction.enableScrolling }]

/-- State of the requestAnimationFrame scroll throttle installed by
optimizeScrollEvents: the current window.scrollY, the rafId module
variable (none models null), the counter used for fresh
requestAnimationFrame ids, the lastScrollY module variable, and a count
of completed scrollHandler executions. -/
structure ScrollSys where
  winScrollY : Int := 0
  rafId : Option Nat := none
  nextId : Nat := 0
  lastScrollY : Int := 0
  handlerRuns : Nat := 0
deriving Repr, DecidableEq

/-- Events driving the scroll throttle: a scroll event (carrying the new
window.scrollY) or an animation frame. -/
inductive ScrollEv where
  | scroll (y : Int)
  | frame
deriving Repr, DecidableEq

/-- One step of the scroll throttle.  On scroll, the listener runs: if
rafId is null it schedules scrollHandler via requestAnimationFrame and
stores the id, else it does nothing.  On a frame, a pending scrollHandler
runs: it stores window.scrollY into lastScrollY and resets rafId to
null. -/
def scrollStep (s : ScrollSys) : ScrollEv → ScrollSys
  | ScrollEv.scroll y =>
      let s := { s with winScrollY := y }
      if s.rafId = none then { s with rafId := some s.nextId, nextId := s.nextId + 1 }
      else s
  | ScrollEv.frame =>
      match s.rafId with
      | some _ => { s with lastScrollY := s.winScrollY, rafId := none,
                           handlerRuns := s.handlerRuns + 1 }
      | none => s

/-- Run the scroll throttle over a trace of events. -/
def runTrace (s : ScrollSys) : List ScrollEv → ScrollSys
  | [] => s
  | e :: es => runTrace (scrollStep s e) es

/-- Number of animation frames in a trace. -/
def countFrames : List ScrollEv → Nat
  | [] => 0
  | ScrollEv.frame :: es => countFrames es + 1
  | ScrollEv.scroll _ :: es => countFrames es

/-! Shared lemmas about the list helpers. -/

/-- Mapping a guarded rewrite over a list where the guard never holds is
the identity. -/
theorem map_ite_id (p : Element → Bool) (f : Element → Element) :
    ∀ l : List Element, (∀ el ∈ l, p el = false) →
      l.map (fun el => if p el then f el else el) = l := by
  intro l h
  induction l with
  | nil => rfl
  | cons a as ih =>
    have ha : p a = false := h a (List.mem_cons_self a as)
    have ih2 := ih (fun el hm => h el (List.mem_cons_of_mem a hm))
    simp [ha, ih2]

/-- No element matches, so the matched index list is empty. -/
theorem idxsFrom_eq_nil (p : Element → Bool) :
    ∀ (l : List Element) (k : Nat), (∀ el ∈ l, p el = false) →
      idxsFrom p k l = [] := by
  intro l
  induction l with
  | nil => intro k _; rfl
  | cons a as ih =>
    intro k h
    have ha : p a = false := h a (List.mem_cons_self a as)
    simp [idxsFrom, ha, ih (k + 1) (fun el hm => h el (List.mem_cons_of_mem a hm))]

/-- Membership in the matched index list yields the element at that index
together with the fact that it matches. -/
theorem idxsFrom_mem (p : Element → Bool) :
    ∀ (l : List Element) (k i : Nat), i ∈ idxsFrom p k l →
      ∃ j el, i = k + j ∧ l.get? j = some el ∧ p el = true := by
  intro l
  induction l with
  | nil => intro k i h; simp [idxsFrom] at h
  | cons a as ih =>
    intro k i h
    by_cases ha : p a = true
    · simp [idxsFrom, ha] at h
      rcases h with h | h
      · exact ⟨0, a, by omega, rfl, ha⟩
      · rcases ih (k + 1) i h with ⟨j, el, hij, hget, hp⟩
        exact ⟨j + 1, el, by omega, hget, hp⟩
    · simp [idxsFrom, ha] at h
      rcases ih (k + 1) i h with ⟨j, el, hij, hget, hp⟩
      exact ⟨j + 1, el, by omega, hget, hp⟩

/-- Membership in the matched index list of a document yields the matching
element at that position. -/
theorem matchedIdxs_mem (p : Element → Bool) (d : Doc) (i : Nat)
    (h : i ∈ matchedIdxs p d) :
    ∃ el, d.elements.get? i = some el ∧ p el = true := by
  rcases idxsFrom_mem p d.elements 0 i h with ⟨j, el, hij, hget, hp⟩
  exact ⟨el, by simpa [hij] using hget, hp⟩

/-- updAt leaves the length unchanged. -/
theorem updAt_length (f : Element → Element) :
    ∀ (l : List Element) (i : Nat), (updAt i f l).length = l.length := by
  intro l
  induction l with
  | nil => intro i; cases i <;> rfl
  | cons a as ih => intro i; cases i <;> simp [updAt, ih]

/-- Reading the written position of updAt. -/
theorem updAt_get?_self (f : Element → Element) :
    ∀ (l : List Element) (i : Nat), (updAt i f l).get? i = (l.get? i).map f := by
  intro l
  induction l with
  | nil => intro i; cases i <;> rfl
  | cons a as ih =>
    intro i
    cases i with
    | zero => rfl
    | succ n => exact ih n

/-- Reading another position of updAt. -/
theorem updAt_get?_ne (f : Element → Element) :
    ∀ (l : List Element) (i j : Nat), j ≠ i → (updAt i f l).get? j = l.get? j := by
  intro l
  induction l with
  | nil => intro i j _; cases i <;> rfl
  | cons a as ih =>
    intro i j hne
    cases i with
    | zero => cases j with
      | zero => exact absurd rfl hne
      | succ j => rfl
    | succ i => cases j with
      | zero => rfl
      | succ j => exact ih i j (by omega)

/-- Writing willChange at position i then reading it back. -/
theorem setElemWillChange_read (d : Doc) (i : Nat) (v : String) (el : Element)
    (h : d.elements.get? i = some el) :
    (d.setElemWillChange i v).willChangeAt i = some v := by
  have h2 := updAt_get?_self
    (fun el => { el with style := { el.style with willChange := v } }) d.elements i
  show ((updAt i (fun el => { el with style := { el.style with willChange := v } })
      d.elements).get? i).map (fun el => el.style.willChange) = some v
  rw [h2, h]
  rfl

/-- Writing willChange at one position does not move another. -/
theorem setElemWillChange_read_ne (d : Doc) (i j : Nat) (v : String) (hne : j ≠ i) :
    (d.setElemWillChange i v).willChangeAt j = d.willChangeAt j := by
  have h2 := updAt_get?_ne
    (fun el => { el with style := { el.style with willChange := v } }) d.elements i j hne
  show ((updAt i (fun el => { el with style := { el.style with willChange := v } })
      d.elements).get? j).map (fun el => el.style.willChange)
    = (d.elements.get? j).map (fun el => el.style.willChange)
  rw [h2]

/-- Writing willChange keeps the element count. -/
theorem setElemWillChange_length (d : Doc) (i : Nat) (v : String) :
    (d.setElemWillChange i v).elements.length = d.elements.length := by
  simp [Doc.setElemWillChange, updAt_length]

/-- A fold of willChange resets keeps the element count. -/
theorem foldl_resets_length :
    ∀ (js : List Nat) (w : World),
      ((js.foldl (fun acc j => runTAction (TAction.resetWillChange j) acc) w).doc.elements.length)
        = w.doc.elements.length := by
  intro js
  induction js with
  | nil => intro w; rfl
  | cons j js ih =>
    intro w
    simpa [runTAction, setElemWillChange_length] using
      (ih (runTAction (TAction.resetWillChange j) w)).trans
        (by simp [runTAction, setElemWillChange_length])

/-- A position already reset to auto stays at auto through a fold of
willChange resets. -/
theorem foldl_resets_keep :
    ∀ (js : List Nat) (w : World) (i : Nat), i < w.doc.elements.length →
      w.doc.willChangeAt i = some "auto" →
      ((js.foldl (fun acc j => runTAction (TAction.resetWillChange j) acc) w).doc.willChangeAt i)
        = some "auto" := by
  intro js
  induction js with
  | nil => intro w i _ h; exact h
  | cons j js ih =>
    intro w i hlen h
    by_cases hji : i = j
    · subst hji
      have hget := List.get?_eq_get hlen
      refine ih _ i ?_ ?_
      · show i < (w.doc.setElemWillChange i "auto").elements.length
        rw [setElemWillChange_length]; exact hlen
      · exact setElemWillChange_read _ _ _ _ hget
    · refine ih _ i ?_ ?_
      · show i < (w.doc.setElemWillChange j "auto").elements.length
        rw [setElemWillChange_length]; exact hlen
      · show (w.doc.setElemWillChange j "auto").willChangeAt i = some "auto"
        rw [setElemWillChange_read_ne _ _ _ _ hji]; exact h

/-- A position listed among the reset indices ends at auto after the fold. -/
theorem foldl_resets_auto :
    ∀ (js : List Nat) (w : World) (i : Nat), i < w.doc.elements.length → i ∈ js →
      ((js.foldl (fun acc j => runTAction (TAction.resetWillChange j) acc) w).doc.willChangeAt i)
        = some "auto" := by
  intro js
  induction js with
  | nil => intro w i _ h; simp at h
  | cons j js ih =>
    intro w i hlen hmem
    by_cases hji : i = j
    · subst hji
      have hget := List.get?_eq_get hlen
      refine foldl_resets_keep js _ i ?_ ?_
      · show i < (w.doc.setElemWillChange i "auto").elements.length
        rw [setElemWillChange_length]; exact hlen
      · exact setElemWillChange_read _ _ _ _ hget
    · have hmem2 : i ∈ js := by
        rcases List.mem_cons.mp hmem with h | h
        · exact absurd h hji
        · exact h
      refine ih _ i ?_ hmem2
      show i < (w.doc.setElemWillChange j "auto").elements.length
      rw [setElemWillChange_length]; exact hlen

/-- A scroll event never runs the handler. -/
theorem scrollStep_scroll_runs (s : ScrollSys) (y : Int) :
    (scrollStep s (ScrollEv.scroll y)).handlerRuns = s.handlerRuns := by
  simp only [scrollStep]
  split <;> rfl

/-- A frame runs the handler at most once. -/
theorem scrollStep_frame_runs (s : ScrollSys) :
    (scrollStep s ScrollEv.frame).handlerRuns ≤ s.handlerRuns + 1 := by
  cases h : s.rafId <;> simp [scrollStep, h]

/-- Over any trace, the handler runs at most once per frame event. -/
theorem runTrace_handlerRuns_le :
    ∀ (evs : List ScrollEv) (s : ScrollSys),
      (runTrace s evs).handlerRuns ≤ s.handlerRuns + countFrames evs := by
  intro evs
  induction evs with
  | nil => intro s; simp [runTrace, countFrames]
  | cons e es ih =>
    intro s
    cases e with
    | scroll y =>
      have h := ih (scrollStep s (ScrollEv.scroll y))
      simpa [runTrace, countFrames, scrollStep_scroll_runs] using h
    | frame =>
      have h := ih (scrollStep s ScrollEv.frame)
      have h2 := scrollStep_frame_runs s
      simp only [runTrace, countFrames]
      omega

/-- Execution times of the debounce under a burst: when every later event
arrives within 250 ms of its predecessor, the only execution is 250 ms
after the last event. -/
theorem debounceRunsAux_burst :
    ∀ (ts : List Nat) (t : Nat),
      List.Chain' (fun a b => b < a + 250) (t :: ts) →
      debounceRunsAux (t + 250) ts = [(t :: ts).getLastD 0 + 250] := by
  intro ts
  induction ts with
  | nil => intro t _; simp [debounceRunsAux, List.getLastD_cons]
  | cons u us ih =>
    intro t hch
    have h1 : u < t + 250 := (List.chain'_cons.mp hch).1
    have h2 : List.Chain' (fun a b => b < a + 250) (u :: us) := (List.chain'_cons.mp hch).2
    have h3 := ih u h2
    rw [List.getLastD_cons] at h3
    show debounceRunsAux (t + 250) (u :: us) = [(t :: u :: us).getLastD 0 + 250]
    rw [List.getLastD_cons, List.getLastD_cons]
    show (if u < t + 250 then debounceRunsAux (u + 250) us
      else (t + 250) :: debounceRunsAux (u + 250) us) = [us.getLastD u + 250]
    rw [if_pos h1]
    exact h3

/-- Projection of an element onto the parts the script never rewrites:
tag, class list, the other inline declarations, and the attributes apart
from loading. -/
def elemCore (el : Element) :
    String × List String × List (String × String) × List (String × String) :=
  (el.tag, el.classes, el.style.otherCss, el.attrs.filter (fun p => p.1 != "loading"))

/-- A guarded elementwise rewrite that fixes a projection leaves the mapped
projection unchanged. -/
theorem map_proj_ite {β : Type} (proj : Element → β) (p : Element → Bool)
    (f : Element → Element) (hf : ∀ el, proj (f el) = proj el) :
    ∀ l : List Element,
      (l.map (fun el => if p el then f el else el)).map proj = l.map proj := by
  intro l
  induction l with
  | nil => rfl
  | cons a as ih =>
    by_cases hp : p a = true
    · simp [hp, hf a, ih]
    · simp [hp, ih]

/-- updAt with a projection-fixing rewrite leaves the mapped projection
unchanged. -/
theorem map_proj_updAt {β : Type} (proj : Element → β) (f : Element → Element)
    (hf : ∀ el, proj (f el) = proj el) :
    ∀ (l : List Element) (i : Nat), ((updAt i f l).map proj) = l.map proj := by
  intro l
  induction l with
  | nil => intro i; cases i <;> rfl
  | cons a as ih =>
    intro i
    cases i with
    | zero => simp [updAt, hf a]
    | succ n => simp [updAt, ih n]

/-- Replacing the loading attribute in place does not change the list of
non-loading attributes. -/
theorem filter_load_map :
    ∀ attrs : List (String × String),
      ((attrs.map (fun p => if p.1 = "loading" then ("loading", "lazy") else p)).filter
        (fun p => p.1 != "loading"))
      = attrs.filter (fun p => p.1 != "loading") := by
  intro attrs
  induction attrs with
  | nil => rfl
  | cons a as ih =>
    by_cases h : a.1 = "loading"
    · simp [h, ih]
    · simp [h, ih]

/-- Appending the loading attribute does not change the list of
non-loading attributes. -/
theorem filter_load_append (attrs : List (String × String)) :
    ((attrs ++ [("loading", "lazy")]).filter (fun p => p.1 != "loading"))
      = attrs.filter (fun p => p.1 != "loading") := by
  simp [List.filter_append]

/-- setAttribute loading lazy fixes elemCore. -/
theorem elemCore_setAttr (el : Element) :
    elemCore (setAttr el "loading" "lazy") = elemCore el := by
  unfold elemCore setAttr
  by_cases h : el.attrs.any (fun p => decide (p.1 = "loading")) = true
  · simp only [h, if_true]
    simp [filter_load_map]
  · simp only [h, if_false, Bool.false_eq_true]
    simp [filter_load_append]

/-- Concrete throttle state with a pending animation-frame id. -/
def sPend : ScrollSys := { rafId := some 0, nextId := 1 }

/-- C1: the requestAnimationFrame throttle installed by optimizeScrollEvents
invokes scrollHandler at most once per animation frame: over any event
trace the handler runs at most once per frame event; while rafId is
non-null a scroll event only records the new window.scrollY and schedules
nothing; and a frame with a pending id runs the handler exactly once and
resets rafId to null, after which a new invocation can be scheduled. -/
theorem scroll_throttle_at_most_once_per_frame (s : ScrollSys)
    (evs : List ScrollEv) (y : Int) :
    (runTrace s evs).handlerRuns ≤ s.handlerRuns + countFrames evs ∧
    (s.rafId ≠ none →
      scrollStep s (ScrollEv.scroll y) = { s with winScrollY := y }) ∧
    (s.rafId ≠ none →
      (scrollStep s ScrollEv.frame).rafId = none ∧
      (scrollStep s ScrollEv.frame).handlerRuns = s.handlerRuns + 1) := by
  refine ⟨runTrace_handlerRuns_le evs s, ?_, ?_⟩
  · intro h
    simp [scrollStep, h]
  · intro h
    cases hr : s.rafId with
    | none => exact absurd hr h
    | some n => simp [scrollStep, hr]

/-- Witness for the throttle theorem at a concrete pending state and
trace. -/
theorem scroll_throttle_witness :
    (runTrace sPend [ScrollEv.scroll 5, ScrollEv.frame, ScrollEv.scroll 7]).handlerRuns
      ≤ sPend.handlerRuns + countFrames [ScrollEv.scroll 5, ScrollEv.frame, ScrollEv.scroll 7] ∧
    scrollStep sPend (ScrollEv.scroll 9) = { sPend with winScrollY := 9 } ∧
    ((scrollStep sPend ScrollEv.frame).rafId = none ∧
     (scrollStep sPend ScrollEv.frame).handlerRuns = sPend.handlerRuns + 1) := by
  have h := scroll_throttle_at_most_once_per_frame sPend
    [ScrollEv.scroll 5, ScrollEv.frame, ScrollEv.scroll 7] 9
  exact ⟨h.1, h.2.1 (by decide), h.2.2 (by decide)⟩

/-- C4: the resize listener debounces optimizeTransforms by 250 ms: a
resize event arriving before the pending deadline cancels that pending
execution and restarts the 250 ms delay, and a burst in which every event
arrives within 250 ms of its predecessor yields exactly one deferred
execution, 250 ms after the last event of the burst. -/
theorem resize_debounce_burst (dl t : Nat) (ts : List Nat) :
    (t < dl → debounceRunsAux dl (t :: ts) = debounceRunsAux (t + 250) ts) ∧
    (List.Chain' (fun a b => b < a + 250) (t :: ts) →
      debounceRuns (t :: ts) = [(t :: ts).getLastD 0 + 250]) := by
  constructor
  · intro h
    show (if t < dl then debounceRunsAux (t + 250) ts
      else dl :: debounceRunsAux (t + 250) ts) = debounceRunsAux (t + 250) ts
    rw [if_pos h]
  · intro hch
    exact debounceRunsAux_burst ts t hch

/-- Witness for the debounce theorem: an event at 60 cancels a deadline at
300, and the burst 0, 100, 200 runs exactly once, at 450. -/
theorem resize_debounce_witness :
    debounceRunsAux 300 (60 :: [150, 300]) = debounceRunsAux (60 + 250) [150, 300] ∧
    debounceRuns (0 :: [100, 200]) = [([0, 100, 200].getLastD 0) + 250] := by
  exact ⟨(resize_debounce_burst 300 60 [150, 300]).1 (by decide),
         (resize_debounce_burst 0 0 [100, 200]).2 (by norm_num [List.chain'_cons])⟩

/-- C7: the forced scroll-enable hack is repeated on a timer: the script
tail schedules enableScrollingImmediately at 500 ms, 1000 ms and 2000 ms
after load, and each such timer action sets body and documentElement
overflow and height to auto and scrolls the window to (0, 0). -/
theorem forced_scroll_rerun_timers (w : World) :
    scriptTailTimers =
      [{ due := 500, action := TAction.enableScrolling },
       { due := 1000, action := TAction.enableScrolling },
       { due := 2000, action := TAction.enableScrolling }] ∧
    (runTAction TAction.enableScrolling w).doc.body.overflow = "auto" ∧
    (runTAction TAction.enableScrolling w).doc.docElement.overflow = "auto" ∧
    (runTAction TAction.enableScrolling w).doc.body.height = "auto" ∧
    (runTAction TAction.enableScrolling w).doc.docElement.height = "auto" ∧
    (runTAction TAction.enableScrolling w).doc.scrollX = 0 ∧
    (runTAction TAction.enableScrolling w).doc.scrollY = 0 :=
  ⟨rfl, rfl, rfl, rfl, rfl, rfl, rfl⟩

/-- C10: enableScrollingImmediately is idempotent: every value it assigns
is a constant independent of the prior state, so running it twice in
succession equals running it once. -/
theorem enable_scrolling_idempotent (w : World) :
    enableScrollingImmediately (enableScrollingImmediately w)
      = enableScrollingImmediately w := rfl

/-- updateElems is the identity when nothing matches. -/
theorem updateElems_id (d : Doc) (p : Element → Bool) (f : Element → Element)
    (h : ∀ el ∈ d.elements, p el = false) : d.updateElems p f = d := by
  show { d with elements := d.elements.map (fun el => if p el then f el else el) } = d
  rw [map_ite_id p f d.elements h]

/-- Reading a position of a mapped element list. -/
theorem get?_map_elems (f : Element → Element) :
    ∀ (l : List Element) (i : Nat), (l.map f).get? i = (l.get? i).map f := by
  intro l
  induction l with
  | nil => intro i; cases i <;> rfl
  | cons a as ih =>
    intro i
    cases i with
    | zero => rfl
    | succ n => exact ih n

/-- A plain div element: no classes, no attributes, empty inline style. -/
def divEl : Element := {}

/-- A world with one plain div, matched by none of the five selectors. -/
def wDiv : World := { doc := { elements := [divEl] } }

/-- A section element, matched by the reducePaintOperations selector but
by none of the other four. -/
def sectEl : Element := { tag := "section" }

/-- A world with one section element and no img. -/
def wSect : World := { doc := { elements := [sectEl] } }

/-- C3: running a selector-driven helper against a document in which that
helper's own selector matches no element leaves the whole state unchanged
and raises no error: the helper iterates over an empty node list and is a
silent no-op, independently of what the other selectors match. -/
theorem no_match_is_noop (w : World) :
    ((∀ el ∈ w.doc.elements, selStyleTransform el = false) →
      optimizeTransforms w = w) ∧
    ((∀ el ∈ w.doc.elements, selObserve el = false) →
      setupIntersectionObserver w = w) ∧
    ((∀ el ∈ w.doc.elements, selHeavy el = false) →
      enableHardwareAcceleration w = w) ∧
    ((∀ el ∈ w.doc.elements, selImg el = false) →
      optimizeImages w = w) ∧
    ((∀ el ∈ w.doc.elements, selSection el = false) →
      reducePaintOperations w = w) := by
  refine ⟨fun h1 => ?_, fun h2 => ?_, fun h3 => ?_, fun h4 => ?_, fun h5 => ?_⟩
  · have hidx1 : matchedIdxs selStyleTransform w.doc = [] :=
      idxsFrom_eq_nil selStyleTransform w.doc.elements 0 h1
    unfold optimizeTransforms
    rw [hidx1, List.map_nil, List.append_nil, updateElems_id _ _ _ h1]
  · have hidx2 : matchedIdxs selObserve w.doc = [] :=
      idxsFrom_eq_nil selObserve w.doc.elements 0 h2
    unfold setupIntersectionObserver
    rw [hidx2, List.append_nil]
    split <;> rfl
  · unfold enableHardwareAcceleration
    rw [updateElems_id _ _ _ h3]
  · unfold optimizeImages
    rw [updateElems_id _ _ _ h4]
  · unfold reducePaintOperations
    rw [updateElems_id _ _ _ h5]

/-- Witness for the no-op theorem: each helper applied where only its own
selector is empty; in particular optimizeImages is a no-op on a document
holding a section element but no img. -/
theorem no_match_witness :
    optimizeTransforms wDiv = wDiv ∧ setupIntersectionObserver wDiv = wDiv ∧
    enableHardwareAcceleration wDiv = wDiv ∧ optimizeImages wSect = wSect ∧
    reducePaintOperations wDiv = wDiv :=
  ⟨(no_match_is_noop wDiv).1 (by decide),
   (no_match_is_noop wDiv).2.1 (by decide),
   (no_match_is_noop wDiv).2.2.1 (by decide),
   (no_match_is_noop wSect).2.2.2.1 (by decide),
   (no_match_is_noop wDiv).2.2.2.2 (by decide)⟩

/-- A world whose window lacks the IntersectionObserver API. -/
def wNoObs : World := { hasIntersectionObserver := false }

/-- C5: the feature check guards exactly one optional code path: with the
IntersectionObserver API absent, setupIntersectionObserver observes
nothing and mutates no state, while every other helper commutes with the
feature flag, so none of them is conditioned on feature detection. -/
theorem feature_detection_single_guard (w : World) (b : Bool)
    (h : w.hasIntersectionObserver = false) :
    setupIntersectionObserver w = w ∧
    enableScrollingImmediately { w with hasIntersectionObserver := b }
      = { enableScrollingImmediately w with hasIntersectionObserver := b } ∧
    optimizeTransforms { w with hasIntersectionObserver := b }
      = { optimizeTransforms w with hasIntersectionObserver := b } ∧
    enableHardwareAcceleration { w with hasIntersectionObserver := b }
      = { enableHardwareAcceleration w with hasIntersectionObserver := b } ∧
    optimizeImages { w with hasIntersectionObserver := b }
      = { optimizeImages w with hasIntersectionObserver := b } ∧
    reducePaintOperations { w with hasIntersectionObserver := b }
      = { reducePaintOperations w with hasIntersectionObserver := b } ∧
    smoothTransitions { w with hasIntersectionObserver := b }
      = { smoothTransitions w with hasIntersectionObserver := b } := by
  refine ⟨?_, rfl, rfl, rfl, rfl, rfl, rfl⟩
  unfold setupIntersectionObserver
  rw [h]
  rfl

/-- Witness for the feature-detection theorem at a concrete world without
the API. -/
theorem feature_detection_witness :
    setupIntersectionObserver wNoObs = wNoObs ∧
    enableScrollingImmediately { wNoObs with hasIntersectionObserver := true }
      = { enableScrollingImmediately wNoObs with hasIntersectionObserver := true } ∧
    optimizeTransforms { wNoObs with hasIntersectionObserver := true }
      = { optimizeTransforms wNoObs with hasIntersectionObserver := true } ∧
    enableHardwareAcceleration { wNoObs with hasIntersectionObserver := true }
      = { enableHardwareAcceleration wNoObs with hasIntersectionObserver := true } ∧
    optimizeImages { wNoObs with hasIntersectionObserver := true }
      = { optimizeImages wNoObs with hasIntersectionObserver := true } ∧
    reducePaintOperations { wNoObs with hasIntersectionObserver := true }
      = { reducePaintOperations wNoObs with hasIntersectionObserver := true } ∧
    smoothTransitions { wNoObs with hasIntersectionObserver := true }
      = { smoothTransitions wNoObs with hasIntersectionObserver := true } :=
  feature_detection_single_guard wNoObs true rfl

/-- A page element holding a nonempty inline transform. -/
def pageEl : Element :=
  { tag := "div", classes := ["page"], style := { transform := "scale(2)" } }

/-- A world with one page element holding a nonempty inline transform. -/
def wPage : World := { doc := { elements := [pageEl] } }

/-- C8: enableHardwareAcceleration keeps a nonempty inline transform value
unchanged and assigns translateZ(0) exactly to elements whose inline
transform is empty (the JavaScript or operator treats the empty string as
falsy), and in both cases sets backfaceVisibility to hidden. -/
theorem hardware_acceleration_transform (w : World) (i : Nat) (el : Element)
    (hget : w.doc.elements.get? i = some el) (hsel : selHeavy el = true) :
    ((enableHardwareAcceleration w).doc.elements.get? i).map (fun e => e.style.transform)
      = some (if el.style.transform = "" then "translateZ(0)" else el.style.transform) ∧
    ((enableHardwareAcceleration w).doc.elements.get? i).map
        (fun e => e.style.backfaceVisibility)
      = some "hidden" := by
  have key : (enableHardwareAcceleration w).doc.elements.get? i
      = some (if selHeavy el then
          { el with style := { el.style with
              transform := if el.style.transform = "" then "translateZ(0)"
                else el.style.transform,
              backfaceVisibility := "hidden" } } else el) := by
    show (w.doc.elements.map (fun el => if selHeavy el then
      { el with style := { el.style with
          transform := if el.style.transform = "" then "translateZ(0)"
            else el.style.transform,
          backfaceVisibility := "hidden" } } else el)).get? i = _
    rw [get?_map_elems, hget]
    rfl
  rw [key]
  constructor
  · simp [hsel]
  · simp [hsel]

/-- Witness for the hardware-acceleration theorem: the page element with
transform scale(2) keeps it. -/
theorem hardware_acceleration_witness :
    ((enableHardwareAcceleration wPage).doc.elements.get? 0).map (fun e => e.style.transform)
      = some (if pageEl.style.transform = "" then "translateZ(0)" else pageEl.style.transform) ∧
    ((enableHardwareAcceleration wPage).doc.elements.get? 0).map
        (fun e => e.style.backfaceVisibility)
      = some "hidden" :=
  hardware_acceleration_transform wPage 0 pageEl (by rfl) (by decide)

/-- An element whose inline style contains a transform declaration. -/
def transEl : Element := { tag := "div", style := { transform := "translateX(10px)" } }

/-- A world with one transformed element and no pending timers. -/
def wTrans : World := { doc := { elements := [transEl] } }

/-- C9: optimizeTransforms sets willChange to transform on every element
matching [style*="transform"] and schedules, for that same element, a
reset of its willChange to auto due exactly 3000 ms later; with no other
timers pending, firing the scheduled timers leaves the element at auto,
so the hint does not persist past 3000 ms after the run. -/
theorem willchange_reset_after_3000ms (w : World) (i : Nat)
    (hi : i ∈ matchedIdxs selStyleTransform w.doc) (h0 : w.timers = []) :
    (optimizeTransforms w).doc.willChangeAt i = some "transform" ∧
    (∀ t ∈ (optimizeTransforms w).timers, t.due = w.now + 3000) ∧
    ({ due := w.now + 3000, action := TAction.resetWillChange i } : Timer)
      ∈ (optimizeTransforms w).timers ∧
    (fireAll (optimizeTransforms w)).doc.willChangeAt i = some "auto" := by
  rcases matchedIdxs_mem selStyleTransform w.doc i hi with ⟨el, hget, hp⟩
  have hlen : i < w.doc.elements.length := by
    rcases List.get?_eq_some.mp hget with ⟨hl, _⟩
    exact hl
  refine ⟨?_, ?_, ?_, ?_⟩
  · show ((w.doc.elements.map (fun el => if selStyleTransform el then
      { el with style := { el.style with willChange := "transform" } } else el)).get? i).map
        (fun el => el.style.willChange) = some "transform"
    rw [get?_map_elems, hget]
    simp [hp]
  · intro t ht
    have ht2 : t ∈ w.timers ++ (matchedIdxs selStyleTransform w.doc).map
        (fun j => ({ due := w.now + 3000, action := TAction.resetWillChange j } : Timer)) := ht
    rw [h0] at ht2
    rcases List.mem_map.mp (by simpa using ht2) with ⟨j, hj, hjt⟩
    rw [← hjt]
  · show _ ∈ w.timers ++ (matchedIdxs selStyleTransform w.doc).map
      (fun j => ({ due := w.now + 3000, action := TAction.resetWillChange j } : Timer))
    exact List.mem_append.mpr (Or.inr
      (List.mem_map_of_mem
        (fun j => ({ due := w.now + 3000, action := TAction.resetWillChange j } : Timer)) hi))
  · have htimers : (optimizeTransforms w).timers
        = (matchedIdxs selStyleTransform w.doc).map
          (fun j => ({ due := w.now + 3000, action := TAction.resetWillChange j } : Timer)) := by
      show w.timers ++ _ = _
      rw [h0]
      exact List.nil_append _
    show ((optimizeTransforms w).timers.foldl (fun acc t => runTAction t.action acc)
      { optimizeTransforms w with timers := [] }).doc.willChangeAt i = some "auto"
    rw [htimers, List.foldl_map]
    have hlen2 : i < ({ optimizeTransforms w with
        timers := ([] : List Timer) }).doc.elements.length := by
      show i < (w.doc.elements.map (fun el => if selStyleTransform el then
        { el with style := { el.style with willChange := "transform" } } else el)).length
      rw [List.length_map]
      exact hlen
    exact foldl_resets_auto (matchedIdxs selStyleTransform w.doc) _ i hlen2 hi

/-- Witness for the willChange reset theorem on a single transformed
element. -/
theorem willchange_reset_witness :
    (optimizeTransforms wTrans).doc.willChangeAt 0 = some "transform" ∧
    (∀ t ∈ (optimizeTransforms wTrans).timers, t.due = wTrans.now + 3000) ∧
    ({ due := wTrans.now + 3000, action := TAction.resetWillChange 0 } : Timer)
      ∈ (optimizeTransforms wTrans).timers ∧
    (fireAll (optimizeTransforms wTrans)).doc.willChangeAt 0 = some "auto" :=
  willchange_reset_after_3000ms wTrans 0 (by decide) rfl

/-- An element with class project. -/
def projEl : Element := { tag := "div", classes := ["project"] }

/-- A document containing one project element. -/
def dProj : Doc := { elements := [projEl] }

/-- C2 counterexample: when the intersection-observer callback fires with
isIntersecting true for the project element, its inline willChange becomes
transform, opacity, not the claimed transform. -/
theorem observer_willchange_cex :
    (observerCallback [{ targetIdx := 0, isIntersecting := true }] dProj).willChangeAt 0
      = some "transform, opacity" ∧
    (observerCallback [{ targetIdx := 0, isIntersecting := true }] dProj).willChangeAt 0
      ≠ some "transform" := by
  refine ⟨rfl, ?_⟩
  decide

/-- C2 amended: a project element is matched by the observer selector, and
once the callback fires with isIntersecting true for an observed element
its inline willChange becomes transform, opacity (and auto when it stops
intersecting). -/
theorem observer_willchange_on_intersect (d : Doc) (i : Nat) (el : Element)
    (hget : d.elements.get? i = some el) (hproj : hasClass el "project" = true) :
    selObserve el = true ∧
    (observerCallback [{ targetIdx := i, isIntersecting := true }] d).willChangeAt i
      = some "transform, opacity" ∧
    (observerCallback [{ targetIdx := i, isIntersecting := false }] d).willChangeAt i
      = some "auto" := by
  refine ⟨?_, ?_, ?_⟩
  · simp [selObserve, hproj]
  · show (d.setElemWillChange i "transform, opacity").willChangeAt i
      = some "transform, opacity"
    exact setElemWillChange_read d i "transform, opacity" el hget
  · show (d.setElemWillChange i "auto").willChangeAt i = some "auto"
    exact setElemWillChange_read d i "auto" el hget

/-- Witness for the amended observer theorem at the concrete document. -/
theorem observer_willchange_witness :
    selObserve projEl = true ∧
    (observerCallback [{ targetIdx := 0, isIntersecting := true }] dProj).willChangeAt 0
      = some "transform, opacity" ∧
    (observerCallback [{ targetIdx := 0, isIntersecting := false }] dProj).willChangeAt 0
      = some "auto" :=
  observer_willchange_on_intersect dProj 0 projEl (by rfl) (by decide)

/-- An img element without attributes. -/
def imgEl : Element := { tag := "img" }

/-- A world with a single img element. -/
def wImg : World := { doc := { elements := [imgEl] } }

/-- C6 counterexample: the script also writes outside the six listed style
properties: optimizeImages sets the imageRendering style property and the
loading attribute, enableScrollingImmediately sets the
webkitOverflowScrolling style property, and smoothTransitions appends a
style node to head. -/
theorem mutation_scope_cex :
    (optimizeImages wImg).doc.elements.map (fun el => el.attrs) = [[("loading", "lazy")]] ∧
    wImg.doc.elements.map (fun el => el.attrs) = [[]] ∧
    (optimizeImages wImg).doc.elements.map (fun el => el.style.imageRendering) = ["auto"] ∧
    wImg.doc.elements.map (fun el => el.style.imageRendering) = [""] ∧
    (enableScrollingImmediately wImg).doc.body.webkitOverflowScrolling = "touch" ∧
    wImg.doc.body.webkitOverflowScrolling = "" ∧
    (smoothTransitions wImg).doc.headStyles.length = wImg.doc.headStyles.length + 1 :=
  ⟨rfl, rfl, rfl, rfl, rfl, rfl, rfl⟩

/-- Writing willChange at one position preserves the frame of a document:
element cores, attributes, head, body and documentElement. -/
theorem setElemWillChange_frame (d : Doc) (i : Nat) (v : String) :
    (d.setElemWillChange i v).elements.map elemCore = d.elements.map elemCore ∧
    (d.setElemWillChange i v).elements.map (fun el => el.attrs)
      = d.elements.map (fun el => el.attrs) ∧
    (d.setElemWillChange i v).headStyles = d.headStyles ∧
    (d.setElemWillChange i v).body = d.body ∧
    (d.setElemWillChange i v).docElement = d.docElement := by
  refine ⟨?_, ?_, rfl, rfl, rfl⟩
  · exact map_proj_updAt elemCore
      (fun el => { el with style := { el.style with willChange := v } })
      (fun el => rfl) d.elements i
  · exact map_proj_updAt (fun el => el.attrs)
      (fun el => { el with style := { el.style with willChange := v } })
      (fun el => rfl) d.elements i

/-- The observer callback preserves the frame of a document: element
cores, attributes, head, body and documentElement. -/
theorem observerCallback_frame :
    ∀ (entries : List IOEntry) (d : Doc),
      (observerCallback entries d).elements.map elemCore = d.elements.map elemCore ∧
      (observerCallback entries d).elements.map (fun el => el.attrs)
        = d.elements.map (fun el => el.attrs) ∧
      (observerCallback entries d).headStyles = d.headStyles ∧
      (observerCallback entries d).body = d.body ∧
      (observerCallback entries d).docElement = d.docElement := by
  intro entries
  induction entries with
  | nil => intro d; exact ⟨rfl, rfl, rfl, rfl, rfl⟩
  | cons e es ih =>
    intro d
    by_cases hI : e.isIntersecting = true
    · have hstep : observerCallback (e :: es) d
          = observerCallback es (d.setElemWillChange e.targetIdx "transform, opacity") := by
        show observerCallback es (if e.isIntersecting then
          d.setElemWillChange e.targetIdx "transform, opacity"
          else d.setElemWillChange e.targetIdx "auto") = _
        rw [if_pos hI]
      rw [hstep]
      rcases ih (d.setElemWillChange e.targetIdx "transform, opacity") with
        ⟨a1, a2, a3, a4, a5⟩
      rcases setElemWillChange_frame d e.targetIdx "transform, opacity" with
        ⟨b1, b2, b3, b4, b5⟩
      exact ⟨a1.trans b1, a2.trans b2, a3.trans b3, a4.trans b4, a5.trans b5⟩
    · have hstep : observerCallback (e :: es) d
          = observerCallback es (d.setElemWillChange e.targetIdx "auto") := by
        show observerCallback es (if e.isIntersecting then
          d.setElemWillChange e.targetIdx "transform, opacity"
          else d.setElemWillChange e.targetIdx "auto") = _
        rw [if_neg hI]
      rw [hstep]
      rcases ih (d.setElemWillChange e.targetIdx "auto") with ⟨a1, a2, a3, a4, a5⟩
      rcases setElemWillChange_frame d e.targetIdx "auto" with ⟨b1, b2, b3, b4, b5⟩
      exact ⟨a1.trans b1, a2.trans b2, a3.trans b3, a4.trans b4, a5.trans b5⟩

/-- C6 amended: every DOM mutation the script performs on elements is an
in-place assignment to one of the inline style properties willChange,
transform, backfaceVisibility, contain, overflow, height,
webkitOverflowScrolling or imageRendering, the setAttribute of loading on
images, the single style element smoothTransitions appends to head, or
the window scroll reset: no operation changes an element tag, class list,
other inline declarations or non-loading attributes, only smoothTransitions
touches head, only optimizeImages touches attributes, and
setupIntersectionObserver mutates no document state at all. -/
theorem mutation_scope_frame (w : World) (entries : List IOEntry) (a : TAction) :
    (enableScrollingImmediately w).doc.elements = w.doc.elements ∧
    (optimizeTransforms w).doc.elements.map elemCore = w.doc.elements.map elemCore ∧
    (setupIntersectionObserver w).doc = w.doc ∧
    (observerCallback entries w.doc).elements.map elemCore = w.doc.elements.map elemCore ∧
    (enableHardwareAcceleration w).doc.elements.map elemCore
      = w.doc.elements.map elemCore ∧
    (optimizeImages w).doc.elements.map elemCore = w.doc.elements.map elemCore ∧
    (reducePaintOperations w).doc.elements.map elemCore = w.doc.elements.map elemCore ∧
    (smoothTransitions w).doc.elements = w.doc.elements ∧
    (runTAction a w).doc.elements.map elemCore = w.doc.elements.map elemCore ∧
    (optimizeTransforms w).doc.elements.map (fun el => el.attrs)
      = w.doc.elements.map (fun el => el.attrs) ∧
    (observerCallback entries w.doc).elements.map (fun el => el.attrs)
      = w.doc.elements.map (fun el => el.attrs) ∧
    (enableHardwareAcceleration w).doc.elements.map (fun el => el.attrs)
      = w.doc.elements.map (fun el => el.attrs) ∧
    (reducePaintOperations w).doc.elements.map (fun el => el.attrs)
      = w.doc.elements.map (fun el => el.attrs) ∧
    (enableScrollingImmediately w).doc.body.otherCss = w.doc.body.otherCss ∧
    (enableScrollingImmediately w).doc.docElement.otherCss = w.doc.docElement.otherCss ∧
    (enableScrollingImmediately w).doc.headStyles = w.doc.headStyles ∧
    (optimizeTransforms w).doc.headStyles = w.doc.headStyles ∧
    (observerCallback entries w.doc).headStyles = w.doc.headStyles ∧
    (enableHardwareAcceleration w).doc.headStyles = w.doc.headStyles ∧
    (optimizeImages w).doc.headStyles = w.doc.headStyles ∧
    (reducePaintOperations w).doc.headStyles = w.doc.headStyles ∧
    (smoothTransitions w).doc.headStyles = w.doc.headStyles ++ [smoothTransitionsCss] := by
  rcases observerCallback_frame entries w.doc with ⟨o1, o2, o3, _, _⟩
  refine ⟨rfl, ?_, ?_, o1, ?_, ?_, ?_, rfl, ?_, ?_, o2, ?_, ?_,
    rfl, rfl, rfl, rfl, o3, rfl, rfl, rfl, rfl⟩
  · exact map_proj_ite elemCore selStyleTransform
      (fun el => { el with style := { el.style with willChange := "transform" } })
      (fun el => rfl) w.doc.elements
  · unfold setupIntersectionObserver
    split <;> rfl
  · exact map_proj_ite elemCore selHeavy
      (fun el => { el with style := { el.style with
        transform := if el.style.transform = "" then "translateZ(0)"
          else el.style.transform,
        backfaceVisibility := "hidden" } })
      (fun el => rfl) w.doc.elements
  · exact map_proj_ite elemCore selImg
      (fun el => setAttr { el with style := { el.style with imageRendering := "auto" } }
        "loading" "lazy")
      (fun el => elemCore_setAttr { el with style := { el.style with
        imageRendering := "auto" } }) w.doc.elements
  · exact map_proj_ite elemCore selSection
      (fun el => { el with style := { el.style with contain := "layout style paint" } })
      (fun el => rfl) w.doc.elements
  · cases a with
    | resetWillChange i =>
      exact map_proj_updAt elemCore
        (fun el => { el with style := { el.style with willChange := "auto" } })
        (fun el => rfl) w.doc.elements i
    | enableScrolling => rfl
  · exact map_proj_ite (fun el => el.attrs) selStyleTransform
      (fun el => { el with style := { el.style with willChange := "transform" } })
      (fun el => rfl) w.doc.elements
  · exact map_proj_ite (fun el => el.attrs) selHeavy
      (fun el => { el with style := { el.style with
        transform := if el.style.transform = "" then "translateZ(0)"
          else el.style.transform,
        backfaceVisibility := "hidden" } })
      (fun el => rfl) w.doc.elements
  · exact map_proj_ite (fun el => el.attrs) selSection
      (fun el => { el with style := { el.style with contain := "layout style paint" } })
      (fun el => rfl) w.doc.elements
